import Mathlib

/-!
Verification of the serial counter-transmitter demo (`src/serial_demo/main.cpp`).

The program opens a serial device write-only, reads its termios attributes,
mutates them to a raw 115200-8N1 configuration, commits them, and then loops
forever writing `std::to_string(count++) + "\n"` followed by a 100 µs sleep.

The shallow embedding below models:
  * the termios structure and the exact bit-level mutations done by `main`
    (flag constants are the Linux/glibc values used on the target platform);
  * the control flow of `main` as a trace of externally visible events
    (open / tcgetattr / tcsetattr / perror / close / write / sleep),
    parameterised by an environment saying which syscalls succeed and what
    baseline termios the device reports, and by a fuel bound on the number
    of loop iterations observed (the loop itself is unbounded);
  * the counter as a 32-bit two's-complement machine integer (C `int`),
    with wraparound modelled explicitly via `% 2^32`;
  * message formatting (`std::to_string` of an `int`, plus `"\n"`).
-/

namespace SerialDemo

/-! ## Termios flag constants (Linux/glibc, octal values from the headers) -/

def B115200 : Nat := 4098
def CSIZE : Nat := 48
def CS8 : Nat := 48
def IGNBRK : Nat := 1
def IXON : Nat := 1024
def IXOFF : Nat := 4096
def IXANY : Nat := 2048
def CLOCAL : Nat := 2048
def CREAD : Nat := 128
def PARENB : Nat := 256
def PARODD : Nat := 512
def CSTOPB : Nat := 64
def CRTSCTS : Nat := 2147483648
def ICANON : Nat := 2
def ECHO : Nat := 8
def ISIG : Nat := 1
def VMIN : Nat := 6
def VTIME : Nat := 5

/-- The termios structure: flag words are nonnegative bit vectors (`tcflag_t`),
the control-character array `c_cc` is modelled as a function from index to
byte value, and the two speed fields hold `speed_t` codes. -/
structure Termios where
  c_iflag : Nat
  c_oflag : Nat
  c_cflag : Nat
  c_lflag : Nat
  c_cc : Nat → Nat
  c_ispeed : Nat
  c_ospeed : Nat

/-- The attribute mutations performed by `main` between `tcgetattr` and
`tcsetattr`, in source order (main.cpp lines 25–37).  `x & ~m` on a
`tcflag_t` is `Nat.ldiff x m`, `x | m` is `Nat.lor`. -/
def applyConfig (t : Termios) : Termios :=
  -- cfsetispeed(&tty, B115200); cfsetospeed(&tty, B115200);
  let t1 := { t with c_ispeed := B115200, c_ospeed := B115200 }
  -- tty.c_cflag = (tty.c_cflag & ~CSIZE) | CS8;
  let t2 := { t1 with c_cflag := Nat.ldiff t1.c_cflag CSIZE ||| CS8 }
  -- tty.c_iflag &= ~IGNBRK;
  let t3 := { t2 with c_iflag := Nat.ldiff t2.c_iflag IGNBRK }
  -- tty.c_lflag = 0; tty.c_oflag = 0;
  let t4 := { t3 with c_lflag := 0, c_oflag := 0 }
  -- tty.c_cc[VMIN] = 0; tty.c_cc[VTIME] = 5;
  let t5 := { t4 with c_cc := fun i => if i = VTIME then 5 else if i = VMIN then 0 else t4.c_cc i }
  -- tty.c_iflag &= ~(IXON | IXOFF | IXANY);
  let t6 := { t5 with c_iflag := Nat.ldiff t5.c_iflag (IXON ||| IXOFF ||| IXANY) }
  -- tty.c_cflag |= (CLOCAL | CREAD);
  let t7 := { t6 with c_cflag := t6.c_cflag ||| (CLOCAL ||| CREAD) }
  -- tty.c_cflag &= ~(PARENB | PARODD);
  let t8 := { t7 with c_cflag := Nat.ldiff t7.c_cflag (PARENB ||| PARODD) }
  -- tty.c_cflag &= ~CSTOPB;
  let t9 := { t8 with c_cflag := Nat.ldiff t8.c_cflag CSTOPB }
  -- tty.c_cflag &= ~CRTSCTS;
  { t9 with c_cflag := Nat.ldiff t9.c_cflag CRTSCTS }

/-! ## 32-bit machine-integer counter (C `int`, two's complement) -/

/-- Reduce an integer into the 32-bit two's-complement range
`[-2^31, 2^31)`. -/
def wrap32 (m : Int) : Int := (m + 2147483648) % 4294967296 - 2147483648

/-- One `count++` step on a 32-bit `int` with wraparound. -/
def int32succ (c : Int) : Int := wrap32 (c + 1)

/-- Value of the counter at the start of loop iteration `i`
(iteration numbering from 0; the counter starts at 0). -/
def counterAt : Nat → Int
  | 0 => 0
  | i + 1 => int32succ (counterAt i)

/-! ## Message formatting: `std::to_string(count) + "\n"` -/

/-- ASCII digit character for a digit value `d < 10`. -/
def digitChar (d : Nat) : Char := Char.ofNat (48 + d)

/-- Decimal digit characters of `n`, least significant first; `fuel` bounds
the recursion (`fuel ≥ n` suffices). Empty for `n = 0`. -/
def natDecAux : Nat → Nat → List Char
  | 0, _ => []
  | fuel + 1, n => if n = 0 then [] else digitChar (n % 10) :: natDecAux fuel (n / 10)

/-- Decimal digit string of a natural number, most significant first,
no leading zeros (`"0"` for 0) — the output of `std::to_string` on a
nonnegative value. -/
def natDecChars (n : Nat) : List Char :=
  if n = 0 then ['0'] else (natDecAux n n).reverse

/-- Output of `std::to_string` on a C `int` value: a `'-'` sign followed by
the decimal digits of the magnitude when negative, plain digits otherwise. -/
def intDecChars (n : Int) : List Char :=
  if n < 0 then '-' :: natDecChars n.natAbs else natDecChars n.toNat

/-- The message transmitted for counter value `n`:
`std::to_string(n) + "\n"` (main.cpp line 48). -/
def msgChars (n : Int) : List Char := intDecChars n ++ ['\n']

/-- Decode a decimal digit string (most significant first) back to a natural
number. -/
def decodeDigits (cs : List Char) : Nat :=
  cs.foldl (fun a c => 10 * a + (c.toNat - 48)) 0

/-- Decode a transmitted message (optional sign, digits, trailing newline)
back to the integer it denotes. -/
def decodeMsg (cs : List Char) : Int :=
  if cs.head? = some '-' then -(decodeDigits cs.tail.dropLast : Int)
  else (decodeDigits cs.dropLast : Int)

/-! ## The run of `main` as a trace of events -/

/-- Externally visible events of a run of `main`. -/
inductive Event where
  | evOpen (ok : Bool)
  | evGetAttr (ok : Bool)
  | evSetAttr (t : Termios) (ok : Bool)
  | evPerror (step : String)
  | evClose
  | evWrite (msg : List Char)
  | evSleep (us : Nat)

/-- Environment of a run: which configuration syscalls succeed, and the
baseline termios the device reports from `tcgetattr`. -/
structure Env where
  openOk : Bool
  getattrOk : Bool
  setattrOk : Bool
  baseline : Termios

/-- Whether the whole configuration phase (open, tcgetattr, tcsetattr)
succeeds in environment `env`. -/
def configOk (env : Env) : Bool :=
  env.openOk && env.getattrOk && env.setattrOk

/-- Events of `fuel` iterations of the transmission loop (main.cpp
lines 46–51) starting from counter value `count`: each iteration writes
`std::to_string(count++) + "\n"` — the write result is ignored — and then
sleeps 100 µs. -/
def loopRun : Nat → Int → List Event
  | 0, _ => []
  | fuel + 1, count =>
      Event.evWrite (msgChars count) :: Event.evSleep 100 :: loopRun fuel (int32succ count)

/-- The run of `main` in environment `env`, observed for at most `fuel` loop
iterations: the event trace, and the exit status (`some code` when `main`
returns, `none` when it is still in the unbounded loop after `fuel`
iterations).  Mirrors the control flow of main.cpp lines 12–55. -/
def mainRun (env : Env) (fuel : Nat) : List Event × Option Nat :=
  if env.openOk = false then
    ([Event.evOpen false, Event.evPerror "open"], some 1)
  else if env.getattrOk = false then
    ([Event.evOpen true, Event.evGetAttr false, Event.evPerror "tcgetattr",
      Event.evClose], some 1)
  else if env.setattrOk = false then
    ([Event.evOpen true, Event.evGetAttr true,
      Event.evSetAttr (applyConfig env.baseline) false,
      Event.evPerror "tcsetattr", Event.evClose], some 1)
  else
    (Event.evOpen true :: Event.evGetAttr true ::
      Event.evSetAttr (applyConfig env.baseline) true :: loopRun fuel 0, none)

/-- Whether an event is a write to the device. -/
def isWrite : Event → Bool
  | Event.evWrite _ => true
  | _ => false

/-- The messages written to the device during a trace, in order. -/
def writes : List Event → List (List Char)
  | [] => []
  | Event.evWrite m :: es => m :: writes es
  | _ :: es => writes es

/-- Positional lookup in an event trace (`nth es i` is the `i`-th event,
counting from 0). -/
def nth {α : Type} : List α → Nat → Option α
  | [], _ => none
  | a :: _, 0 => some a
  | _ :: l, i + 1 => nth l i

/-- A sample baseline termios (all fields zero), used to instantiate
concrete runs. -/
def termios0 : Termios :=
  { c_iflag := 0, c_oflag := 0, c_cflag := 0, c_lflag := 0
    c_cc := fun _ => 0, c_ispeed := 0, c_ospeed := 0 }

/-! ## Counter arithmetic -/

lemma counterAt_eq_wrap32 (i : Nat) : counterAt i = wrap32 i := by
  induction i with
  | zero =>
      show (0 : Int) = wrap32 ((0 : Nat) : Int)
      rw [wrap32]
      norm_num
  | succ i ih =>
      rw [counterAt, ih, int32succ, wrap32, wrap32, wrap32]
      push_cast
      omega

lemma counterAt_small {i : Nat} (h : i ≤ 2147483647) : counterAt i = (i : Int) := by
  rw [counterAt_eq_wrap32, wrap32]
  omega

lemma counterAt_wrap : counterAt 2147483648 = -2147483648 := by
  rw [counterAt_eq_wrap32, wrap32]
  norm_num

lemma counterAt_iterate (i : Nat) : counterAt i = int32succ^[i] 0 := by
  induction i with
  | zero => rfl
  | succ i ih => rw [counterAt, ih, Function.iterate_succ_apply']

/-! ## Decimal digit characters -/

lemma digitChar_toNat {d : Nat} (h : d < 10) : (digitChar d).toNat = 48 + d := by
  interval_cases d <;> decide

lemma digitChar_ne_dash {d : Nat} (h : d < 10) : digitChar d ≠ '-' := by
  interval_cases d <;> decide

lemma digitChar_ne_newline {d : Nat} (h : d < 10) : digitChar d ≠ '\n' := by
  interval_cases d <;> decide

lemma digitChar_isDigit {d : Nat} (h : d < 10) : (digitChar d).isDigit = true := by
  interval_cases d <;> decide

lemma digitChar_ne_char0 {d : Nat} (h0 : 0 < d) (h : d < 10) : digitChar d ≠ '0' := by
  interval_cases d <;> decide

lemma natDecAux_zero (fuel : Nat) : natDecAux fuel 0 = [] := by
  cases fuel <;> simp [natDecAux]

lemma natDecAux_ne_nil {fuel n : Nat} (h0 : 0 < n) (hf : 0 < fuel) :
    natDecAux fuel n ≠ [] := by
  cases fuel with
  | zero => omega
  | succ fuel =>
      rw [natDecAux, if_neg (by omega : ¬ n = 0)]
      simp

lemma natDecAux_mem {fuel n : Nat} {c : Char} (hc : c ∈ natDecAux fuel n) :
    ∃ d, d < 10 ∧ c = digitChar d := by
  induction fuel generalizing n with
  | zero => simp [natDecAux] at hc
  | succ fuel ih =>
      rw [natDecAux] at hc
      by_cases hn : n = 0
      · rw [if_pos hn] at hc
        simp at hc
      · rw [if_neg hn] at hc
        rcases List.mem_cons.mp hc with hc | hc
        · exact ⟨n % 10, Nat.mod_lt _ (by norm_num), hc⟩
        · exact ih hc

lemma natDecAux_getLast? {fuel n : Nat} (h0 : 0 < n) (hf : n ≤ fuel) :
    ∃ d, 0 < d ∧ d < 10 ∧ (natDecAux fuel n).getLast? = some (digitChar d) := by
  induction fuel generalizing n with
  | zero => omega
  | succ fuel ih =>
      rw [natDecAux, if_neg (by omega : ¬ n = 0)]
      by_cases hq : n / 10 = 0
      · rw [hq, natDecAux_zero]
        exact ⟨n % 10, by omega, Nat.mod_lt _ (by norm_num), rfl⟩
      · obtain ⟨d, hd0, hd10, hlast⟩ := ih (n := n / 10) (by omega) (by omega)
        refine ⟨d, hd0, hd10, ?_⟩
        have hne : natDecAux fuel (n / 10) ≠ [] :=
          natDecAux_ne_nil (by omega) (by omega)
        rcases List.exists_cons_of_ne_nil hne with ⟨b, l, hb⟩
        rw [hb, List.getLast?_cons_cons, ← hb, hlast]

lemma foldl_decode {fuel n : Nat} (hf : n ≤ fuel) (a : Nat) :
    List.foldl (fun a c => 10 * a + (c.toNat - 48)) a (natDecAux fuel n).reverse
      = a * 10 ^ (natDecAux fuel n).length + n := by
  induction fuel generalizing n a with
  | zero =>
      have hn : n = 0 := by omega
      simp [hn, natDecAux]
  | succ fuel ih =>
      rw [natDecAux]
      by_cases hn : n = 0
      · simp [hn]
      · rw [if_neg hn, List.reverse_cons, List.foldl_append,
          ih (show n / 10 ≤ fuel by omega) a]
        simp only [List.foldl_cons, List.foldl_nil, List.length_cons]
        rw [digitChar_toNat (Nat.mod_lt _ (by norm_num)), pow_succ]
        have hr : a * (10 ^ (natDecAux fuel (n / 10)).length * 10)
            = a * 10 ^ (natDecAux fuel (n / 10)).length * 10 := by ring
        rw [hr]
        generalize a * 10 ^ (natDecAux fuel (n / 10)).length = m
        omega

/-! ## Decimal strings and decoding -/

lemma natDecChars_ne_nil (n : Nat) : natDecChars n ≠ [] := by
  by_cases hn : n = 0
  · simp [hn, natDecChars]
  · rw [natDecChars, if_neg hn]
    simpa using natDecAux_ne_nil (Nat.pos_of_ne_zero hn) (Nat.pos_of_ne_zero hn)

lemma natDecChars_mem {n : Nat} {c : Char} (hc : c ∈ natDecChars n) :
    ∃ d, d < 10 ∧ c = digitChar d := by
  by_cases hn : n = 0
  · rw [hn, natDecChars] at hc
    simp at hc
    exact ⟨0, by norm_num, by rw [hc]; rfl⟩
  · rw [natDecChars, if_neg hn, List.mem_reverse] at hc
    exact natDecAux_mem hc

lemma natDecChars_head? {n : Nat} (h0 : 0 < n) :
    ∃ d, 0 < d ∧ d < 10 ∧ (natDecChars n).head? = some (digitChar d) := by
  rw [natDecChars, if_neg (by omega : ¬ n = 0), List.head?_reverse]
  exact natDecAux_getLast? h0 (le_refl n)

lemma natDecChars_head?_ne_dash (n : Nat) : (natDecChars n).head? ≠ some '-' := by
  by_cases hn : n = 0
  · rw [hn]
    decide
  · obtain ⟨d, _, hd10, hhead⟩ := natDecChars_head? (Nat.pos_of_ne_zero hn)
    rw [hhead]
    intro hcon
    exact digitChar_ne_dash hd10 (Option.some_injective _ hcon)

lemma natDecChars_head?_ne_char0 {n : Nat} (h0 : 0 < n) :
    (natDecChars n).head? ≠ some '0' := by
  obtain ⟨d, hd0, hd10, hhead⟩ := natDecChars_head? h0
  rw [hhead]
  intro hcon
  exact digitChar_ne_char0 hd0 hd10 (Option.some_injective _ hcon)

lemma decodeDigits_natDecChars (n : Nat) : decodeDigits (natDecChars n) = n := by
  by_cases hn : n = 0
  · rw [hn]
    decide
  · rw [natDecChars, if_neg hn, decodeDigits, foldl_decode (le_refl n) 0]
    simp

lemma msgChars_nonneg {n : Int} (h : 0 ≤ n) :
    msgChars n = natDecChars n.toNat ++ ['\n'] := by
  rw [msgChars, intDecChars, if_neg (by omega)]

lemma decodeMsg_msgChars (n : Int) : decodeMsg (msgChars n) = n := by
  by_cases hn : n < 0
  · rw [msgChars, intDecChars, if_pos hn]
    rw [decodeMsg]
    simp only [List.cons_append, List.head?_cons, List.tail_cons]
    rw [if_pos trivial, List.dropLast_concat, decodeDigits_natDecChars]
    omega
  · push_neg at hn
    rw [msgChars_nonneg hn, decodeMsg]
    rw [if_neg ?hd, List.dropLast_concat, decodeDigits_natDecChars]
    · omega
    case hd =>
      rcases List.exists_cons_of_ne_nil (natDecChars_ne_nil n.toNat) with ⟨b, l, hb⟩
      have hhead : (natDecChars n.toNat).head? = some b := by rw [hb]; rfl
      rw [hb, List.cons_append, List.head?_cons]
      intro hcon
      rw [hcon] at hhead
      exact natDecChars_head?_ne_dash n.toNat hhead

/-! ## Bit-level facts about the applied configuration -/

lemma applyConfig_cflag (t : Termios) :
    (applyConfig t).c_cflag =
      Nat.ldiff (Nat.ldiff (Nat.ldiff ((Nat.ldiff t.c_cflag CSIZE ||| CS8)
        ||| (CLOCAL ||| CREAD)) (PARENB ||| PARODD)) CSTOPB) CRTSCTS := rfl

lemma applyConfig_iflag (t : Termios) :
    (applyConfig t).c_iflag =
      Nat.ldiff (Nat.ldiff t.c_iflag IGNBRK) (IXON ||| IXOFF ||| IXANY) := rfl

lemma applyConfig_lflag (t : Termios) : (applyConfig t).c_lflag = 0 := rfl

lemma applyConfig_oflag (t : Termios) : (applyConfig t).c_oflag = 0 := rfl

lemma applyConfig_ispeed (t : Termios) : (applyConfig t).c_ispeed = B115200 := rfl

lemma applyConfig_ospeed (t : Termios) : (applyConfig t).c_ospeed = B115200 := rfl

lemma applyConfig_cc (t : Termios) :
    (applyConfig t).c_cc =
      fun i => if i = VTIME then 5 else if i = VMIN then 0 else t.c_cc i := rfl

lemma ldiff_land_self (x m : Nat) : Nat.ldiff x m &&& m = 0 := by
  apply Nat.eq_of_testBit_eq
  intro i
  rw [Nat.testBit_land, Nat.testBit_ldiff, Nat.zero_testBit]
  cases Nat.testBit x i <;> cases Nat.testBit m i <;> rfl

lemma land_two_pow_eq_zero {x : Nat} (n : Nat) (h : Nat.testBit x n = false) :
    x &&& 2 ^ n = 0 := by
  apply Nat.eq_of_testBit_eq
  intro i
  rw [Nat.testBit_land, Nat.testBit_two_pow, Nat.zero_testBit]
  by_cases hni : n = i
  · subst hni
    simp [h]
  · simp [hni]

lemma land_two_pow_pair {x : Nat} (a b : Nat) (ha : Nat.testBit x a = true)
    (hb : Nat.testBit x b = true) : x &&& (2 ^ a ||| 2 ^ b) = 2 ^ a ||| 2 ^ b := by
  apply Nat.eq_of_testBit_eq
  intro i
  rw [Nat.testBit_land, Nat.testBit_lor, Nat.testBit_two_pow, Nat.testBit_two_pow]
  by_cases hai : a = i
  · subst hai
    simp [ha]
  · by_cases hbi : b = i
    · subst hbi
      simp [hb, hai]
    · simp [hai, hbi]

lemma cflag_testBit4 (t : Termios) : Nat.testBit (applyConfig t).c_cflag 4 = true := by
  rw [applyConfig_cflag]
  simp only [Nat.testBit_ldiff, Nat.testBit_lor]
  simp +decide [CSIZE, CS8, CLOCAL, CREAD, PARENB, PARODD, CSTOPB, CRTSCTS]

lemma cflag_testBit5 (t : Termios) : Nat.testBit (applyConfig t).c_cflag 5 = true := by
  rw [applyConfig_cflag]
  simp only [Nat.testBit_ldiff, Nat.testBit_lor]
  simp +decide [CSIZE, CS8, CLOCAL, CREAD, PARENB, PARODD, CSTOPB, CRTSCTS]

lemma cflag_testBit6 (t : Termios) : Nat.testBit (applyConfig t).c_cflag 6 = false := by
  rw [applyConfig_cflag]
  simp only [Nat.testBit_ldiff, Nat.testBit_lor]
  simp +decide [CSIZE, CS8, CLOCAL, CREAD, PARENB, PARODD, CSTOPB, CRTSCTS]

lemma cflag_testBit8 (t : Termios) : Nat.testBit (applyConfig t).c_cflag 8 = false := by
  rw [applyConfig_cflag]
  simp only [Nat.testBit_ldiff, Nat.testBit_lor]
  simp +decide [CSIZE, CS8, CLOCAL, CREAD, PARENB, PARODD, CSTOPB, CRTSCTS]

lemma cflag_testBit9 (t : Termios) : Nat.testBit (applyConfig t).c_cflag 9 = false := by
  rw [applyConfig_cflag]
  simp only [Nat.testBit_ldiff, Nat.testBit_lor]
  simp +decide [CSIZE, CS8, CLOCAL, CREAD, PARENB, PARODD, CSTOPB, CRTSCTS]

lemma cflag_testBit31 (t : Termios) : Nat.testBit (applyConfig t).c_cflag 31 = false := by
  rw [applyConfig_cflag]
  simp only [Nat.testBit_ldiff, Nat.testBit_lor]
  simp +decide [CSIZE, CS8, CLOCAL, CREAD, PARENB, PARODD, CSTOPB, CRTSCTS]

lemma testBit_lit48 {i : Nat} (h4 : i ≠ 4) (h5 : i ≠ 5) :
    Nat.testBit 48 i = false := by
  have e : (48 : Nat) = 2 ^ 4 ||| 2 ^ 5 := by decide
  rw [e, Nat.testBit_lor, Nat.testBit_two_pow, Nat.testBit_two_pow]
  simp only [Bool.or_eq_false_iff, decide_eq_false_iff_not]
  omega

lemma testBit_lit64 {i : Nat} (h : i ≠ 6) : Nat.testBit 64 i = false := by
  have e : (64 : Nat) = 2 ^ 6 := by decide
  rw [e]
  exact Nat.testBit_two_pow_of_ne (Ne.symm h)

lemma testBit_lit128 {i : Nat} (h : i ≠ 7) : Nat.testBit 128 i = false := by
  have e : (128 : Nat) = 2 ^ 7 := by decide
  rw [e]
  exact Nat.testBit_two_pow_of_ne (Ne.symm h)

lemma testBit_lit256 {i : Nat} (h : i ≠ 8) : Nat.testBit 256 i = false := by
  have e : (256 : Nat) = 2 ^ 8 := by decide
  rw [e]
  exact Nat.testBit_two_pow_of_ne (Ne.symm h)

lemma testBit_lit512 {i : Nat} (h : i ≠ 9) : Nat.testBit 512 i = false := by
  have e : (512 : Nat) = 2 ^ 9 := by decide
  rw [e]
  exact Nat.testBit_two_pow_of_ne (Ne.symm h)

lemma testBit_lit2048 {i : Nat} (h : i ≠ 11) : Nat.testBit 2048 i = false := by
  have e : (2048 : Nat) = 2 ^ 11 := by decide
  rw [e]
  exact Nat.testBit_two_pow_of_ne (Ne.symm h)

lemma testBit_lit2pow31 {i : Nat} (h : i ≠ 31) :
    Nat.testBit 2147483648 i = false := by
  have e : (2147483648 : Nat) = 2 ^ 31 := by decide
  rw [e]
  exact Nat.testBit_two_pow_of_ne (Ne.symm h)

lemma applyConfig_iflag_combined (t : Termios) :
    (applyConfig t).c_iflag = Nat.ldiff t.c_iflag (IGNBRK ||| IXON ||| IXOFF ||| IXANY) := by
  rw [applyConfig_iflag]
  apply Nat.eq_of_testBit_eq
  intro i
  simp only [Nat.testBit_ldiff, Nat.testBit_lor]
  cases Nat.testBit t.c_iflag i <;> cases Nat.testBit IGNBRK i <;>
    cases Nat.testBit IXON i <;> cases Nat.testBit IXOFF i <;>
      cases Nat.testBit IXANY i <;> rfl

lemma applyConfig_cflag_frame (t : Termios) {i : Nat} (h4 : i ≠ 4) (h5 : i ≠ 5)
    (h6 : i ≠ 6) (h7 : i ≠ 7) (h8 : i ≠ 8) (h9 : i ≠ 9) (h11 : i ≠ 11)
    (h31 : i ≠ 31) :
    Nat.testBit (applyConfig t).c_cflag i = Nat.testBit t.c_cflag i := by
  rw [applyConfig_cflag]
  simp only [CSIZE, CS8, CLOCAL, CREAD, PARENB, PARODD, CSTOPB, CRTSCTS]
  simp only [Nat.testBit_ldiff, Nat.testBit_lor]
  simp only [testBit_lit48 h4 h5, testBit_lit2048 h11, testBit_lit128 h7,
    testBit_lit256 h8, testBit_lit512 h9, testBit_lit64 h6, testBit_lit2pow31 h31]
  simp

lemma applyConfig_cc_frame (t : Termios) {i : Nat} (hvt : i ≠ VTIME)
    (hvm : i ≠ VMIN) : (applyConfig t).c_cc i = t.c_cc i := by
  rw [applyConfig_cc]
  simp [hvt, hvm]

/-! ## Structure of the run trace -/

lemma loopRun_length (fuel : Nat) (c : Int) : (loopRun fuel c).length = 2 * fuel := by
  induction fuel generalizing c with
  | zero => rfl
  | succ fuel ih =>
      rw [loopRun]
      simp only [List.length_cons, ih]
      omega

lemma loopRun_get (fuel : Nat) (c : Int) (i : Nat) (h : i < fuel) :
    nth (loopRun fuel c) (2 * i) = some (Event.evWrite (msgChars (int32succ^[i] c))) ∧
    nth (loopRun fuel c) (2 * i + 1) = some (Event.evSleep 100) := by
  induction i generalizing fuel c with
  | zero =>
      cases fuel with
      | zero => omega
      | succ fuel =>
          rw [loopRun]
          refine ⟨?_, ?_⟩ <;> rfl
  | succ i ih =>
      cases fuel with
      | zero => omega
      | succ fuel =>
          rw [loopRun]
          have e2 : 2 * (i + 1) = 2 * i + 1 + 1 := by omega
          have eiter : int32succ^[i + 1] c = int32succ^[i] (int32succ c) :=
            Function.iterate_succ_apply int32succ i c
          rw [e2, eiter]
          exact ih fuel (int32succ c) (by omega)

lemma mainRun_ok (env : Env) (fuel : Nat) (h : configOk env = true) :
    mainRun env fuel =
      (Event.evOpen true :: Event.evGetAttr true ::
        Event.evSetAttr (applyConfig env.baseline) true :: loopRun fuel 0, none) := by
  rw [configOk, Bool.and_eq_true, Bool.and_eq_true] at h
  rw [mainRun, if_neg (by simp [h.1.1]), if_neg (by simp [h.1.2]),
    if_neg (by simp [h.2])]

lemma mainRun_ok_get (env : Env) (fuel i : Nat) (hok : configOk env = true)
    (h : i < fuel) :
    nth (mainRun env fuel).1 (3 + 2 * i) = some (Event.evWrite (msgChars (counterAt i))) ∧
    nth (mainRun env fuel).1 (3 + 2 * i + 1) = some (Event.evSleep 100) := by
  rw [mainRun_ok env fuel hok, counterAt_iterate]
  obtain ⟨h1, h2⟩ := loopRun_get fuel 0 i h
  have e4 : 3 + 2 * i + 1 = 2 * i + 1 + 1 + 1 + 1 := by omega
  have e3 : 3 + 2 * i = 2 * i + 1 + 1 + 1 := by omega
  rw [e4, e3]
  exact ⟨h1, h2⟩

/-! ## Claim theorems -/

/-- Claim C4: after the configuration phase succeeds, the line-discipline
settings committed to the device are baud 115200 in both directions, 8 data
bits (CSIZE field equals CS8), no parity (PARENB clear), 1 stop bit (CSTOPB
clear), software flow control disabled (IXON/IXOFF/IXANY clear), hardware
flow control disabled (CRTSCTS clear), and canonical processing, echo and
signal generation all disabled (c_lflag has ICANON, ECHO and ISIG clear). -/
theorem config_line_discipline (t : Termios) :
    (applyConfig t).c_ispeed = B115200 ∧
    (applyConfig t).c_ospeed = B115200 ∧
    (applyConfig t).c_cflag &&& CSIZE = CS8 ∧
    (applyConfig t).c_cflag &&& PARENB = 0 ∧
    (applyConfig t).c_cflag &&& CSTOPB = 0 ∧
    (applyConfig t).c_iflag &&& (IXON ||| IXOFF ||| IXANY) = 0 ∧
    (applyConfig t).c_cflag &&& CRTSCTS = 0 ∧
    (applyConfig t).c_lflag &&& (ICANON ||| ECHO ||| ISIG) = 0 := by
  refine ⟨rfl, rfl, ?_, ?_, ?_, ?_, ?_, ?_⟩
  · have e : CSIZE = 2 ^ 4 ||| 2 ^ 5 := by decide
    have e8 : CS8 = 2 ^ 4 ||| 2 ^ 5 := by decide
    rw [e, e8]
    exact land_two_pow_pair 4 5 (cflag_testBit4 t) (cflag_testBit5 t)
  · have e : PARENB = 2 ^ 8 := by decide
    rw [e]
    exact land_two_pow_eq_zero 8 (cflag_testBit8 t)
  · have e : CSTOPB = 2 ^ 6 := by decide
    rw [e]
    exact land_two_pow_eq_zero 6 (cflag_testBit6 t)
  · rw [applyConfig_iflag]
    exact ldiff_land_self _ _
  · have e : CRTSCTS = 2 ^ 31 := by decide
    rw [e]
    exact land_two_pow_eq_zero 31 (cflag_testBit31 t)
  · rw [applyConfig_lflag]
    decide

/-- Claim C8: the applied configuration sets the minimum-bytes-to-read
control character (VMIN) to 0 and the read timeout (VTIME, counted in
tenths of a second) to 5, i.e. 500 milliseconds = 0.5 s. -/
theorem config_vmin_vtime (t : Termios) :
    (applyConfig t).c_cc VMIN = 0 ∧
    (applyConfig t).c_cc VTIME = 5 ∧
    (applyConfig t).c_cc VTIME * 100 = 500 :=
  ⟨rfl, rfl, rfl⟩

/-- Claim C9: applying the configuration preserves all baseline termios
fields except those explicitly set: c_iflag only has the IGNBRK, IXON,
IXOFF and IXANY bits cleared (every other bit is preserved); c_cflag
changes only in the CSIZE field (bits 4–5), CSTOPB (6), CREAD (7),
PARENB (8), PARODD (9), CLOCAL (11) and CRTSCTS (31); c_lflag and c_oflag
are overwritten wholesale with 0; and control characters other than
VMIN and VTIME keep their baseline values. -/
theorem config_frame_effect (t : Termios) :
    (applyConfig t).c_iflag = Nat.ldiff t.c_iflag (IGNBRK ||| IXON ||| IXOFF ||| IXANY) ∧
    (∀ i, i ≠ 4 → i ≠ 5 → i ≠ 6 → i ≠ 7 → i ≠ 8 → i ≠ 9 → i ≠ 11 → i ≠ 31 →
      Nat.testBit (applyConfig t).c_cflag i = Nat.testBit t.c_cflag i) ∧
    (applyConfig t).c_lflag = 0 ∧
    (applyConfig t).c_oflag = 0 ∧
    (∀ i, i ≠ VMIN → i ≠ VTIME → (applyConfig t).c_cc i = t.c_cc i) := by
  refine ⟨applyConfig_iflag_combined t, ?_, rfl, rfl, ?_⟩
  · intro i h4 h5 h6 h7 h8 h9 h11 h31
    exact applyConfig_cflag_frame t h4 h5 h6 h7 h8 h9 h11 h31
  · intro i hvm hvt
    exact applyConfig_cc_frame t hvt hvm

/-- Witness for C9: at the all-zero baseline, bit 0 of c_cflag and control
character 0 are preserved by the configuration. -/
theorem config_frame_effect_witness :
    Nat.testBit (applyConfig termios0).c_cflag 0 = Nat.testBit termios0.c_cflag 0 ∧
    (applyConfig termios0).c_cc 0 = termios0.c_cc 0 :=
  ⟨(config_frame_effect termios0).2.1 0 (by decide) (by decide) (by decide)
      (by decide) (by decide) (by decide) (by decide) (by decide),
    (config_frame_effect termios0).2.2.2.2 0 (by decide) (by decide)⟩

/-- Claim C3: in every run, any write event is preceded by a successful
`tcsetattr` (the configuration phase completed), and in every run where a
configuration step fails, zero writes occur and the process exits with the
non-zero status 1. -/
theorem startup_ordering (env : Env) (fuel : Nat) :
    (∀ i m, nth (mainRun env fuel).1 i = some (Event.evWrite m) →
      ∃ j, j < i ∧ nth (mainRun env fuel).1 j
          = some (Event.evSetAttr (applyConfig env.baseline) true)) ∧
    (configOk env = false →
      writes (mainRun env fuel).1 = [] ∧ (mainRun env fuel).2 = some 1) := by
  obtain ⟨o, g, s, b⟩ := env
  cases o with
  | false =>
      refine ⟨?_, fun _ => ⟨rfl, rfl⟩⟩
      intro i m hi
      exfalso
      rcases i with _ | _ | i <;> simp [mainRun, nth] at hi
  | true =>
      cases g with
      | false =>
          refine ⟨?_, fun _ => ⟨rfl, rfl⟩⟩
          intro i m hi
          exfalso
          rcases i with _ | _ | _ | _ | i <;> simp [mainRun, nth] at hi
      | true =>
          cases s with
          | false =>
              refine ⟨?_, fun _ => ⟨rfl, rfl⟩⟩
              intro i m hi
              exfalso
              rcases i with _ | _ | _ | _ | _ | i <;> simp [mainRun, nth] at hi
          | true =>
              refine ⟨?_, fun hcon => by simp [configOk] at hcon⟩
              intro i m hi
              rcases i with _ | _ | _ | i
              · simp [mainRun, nth] at hi
              · simp [mainRun, nth] at hi
              · simp [mainRun, nth] at hi
              · exact ⟨2, by omega, by simp [mainRun, nth]⟩

/-- Witness for C3: with a failing `open`, the run performs no writes and
exits with status 1. -/
theorem startup_ordering_witness :
    writes (mainRun ⟨false, true, true, termios0⟩ 5).1 = [] ∧
    (mainRun ⟨false, true, true, termios0⟩ 5).2 = some 1 :=
  (startup_ordering ⟨false, true, true, termios0⟩ 5).2 rfl

/-- Claim C5: in every run where `tcgetattr` or `tcsetattr` fails after a
successful `open`, the opened handle is closed before the process exits
(the trace contains a close event, following the successful open at
position 0), and the run exits with status 1. -/
theorem cleanup_on_failure (env : Env) (fuel : Nat) (hopen : env.openOk = true)
    (hfail : env.getattrOk = false ∨ env.setattrOk = false) :
    Event.evClose ∈ (mainRun env fuel).1 ∧
    nth (mainRun env fuel).1 0 = some (Event.evOpen true) ∧
    (mainRun env fuel).2 = some 1 := by
  obtain ⟨o, g, s, b⟩ := env
  cases o with
  | false => simp at hopen
  | true =>
      cases g with
      | false => exact ⟨by simp [mainRun], rfl, rfl⟩
      | true =>
          cases s with
          | false => exact ⟨by simp [mainRun], rfl, rfl⟩
          | true => rcases hfail with h | h <;> simp at h

/-- Witness for C5: a run whose `tcgetattr` fails closes the handle and
exits with status 1. -/
theorem cleanup_on_failure_witness :
    Event.evClose ∈ (mainRun ⟨true, false, true, termios0⟩ 3).1 ∧
    nth (mainRun ⟨true, false, true, termios0⟩ 3).1 0 = some (Event.evOpen true) ∧
    (mainRun ⟨true, false, true, termios0⟩ 3).2 = some 1 :=
  cleanup_on_failure ⟨true, false, true, termios0⟩ 3 rfl (Or.inl rfl)

/-- Claim C6: the run never returns exit status 0: when configuration
succeeds the loop never reaches a terminal state (the run is still looping
after any number of observed iterations), and each configuration failure
returns status 1 immediately together with a `perror` diagnostic naming the
failing step (`perror` appends the OS-level error description). -/
theorem exit_status (env : Env) (fuel : Nat) :
    (mainRun env fuel).2 ≠ some 0 ∧
    (configOk env = true → (mainRun env fuel).2 = none) ∧
    (env.openOk = false →
      (mainRun env fuel).2 = some 1 ∧
      Event.evPerror "open" ∈ (mainRun env fuel).1 ∧
      writes (mainRun env fuel).1 = []) ∧
    (env.openOk = true → env.getattrOk = false →
      (mainRun env fuel).2 = some 1 ∧
      Event.evPerror "tcgetattr" ∈ (mainRun env fuel).1) ∧
    (env.openOk = true → env.getattrOk = true → env.setattrOk = false →
      (mainRun env fuel).2 = some 1 ∧
      Event.evPerror "tcsetattr" ∈ (mainRun env fuel).1) := by
  obtain ⟨o, g, s, b⟩ := env
  cases o <;> cases g <;> cases s <;>
    simp [mainRun, configOk, writes]

/-- Witness for C6: with a failing `open`, the run exits with status 1,
emits the `perror("open")` diagnostic, and performs no writes. -/
theorem exit_status_witness :
    (mainRun ⟨false, true, true, termios0⟩ 2).2 = some 1 ∧
    Event.evPerror "open" ∈ (mainRun ⟨false, true, true, termios0⟩ 2).1 ∧
    writes (mainRun ⟨false, true, true, termios0⟩ 2).1 = [] :=
  (exit_status ⟨false, true, true, termios0⟩ 2).2.2.1 rfl

/-- Claim C7: in a run whose configuration succeeded, every observed loop
iteration `i` performs, in order, exactly one write of the message formatted
from the pre-increment counter value, then a 100 µs sleep; the counter of
the next iteration is the 32-bit increment of the current one (count++),
and each iteration contributes exactly these two events (the trace has
length 3 + 2·fuel, so there is no result check or retry between them). -/
theorem loop_iteration_shape (env : Env) (fuel i : Nat)
    (hok : configOk env = true) (hi : i < fuel) :
    nth (mainRun env fuel).1 (3 + 2 * i) = some (Event.evWrite (msgChars (counterAt i))) ∧
    nth (mainRun env fuel).1 (3 + 2 * i + 1) = some (Event.evSleep 100) ∧
    counterAt (i + 1) = int32succ (counterAt i) ∧
    (mainRun env fuel).1.length = 3 + 2 * fuel := by
  obtain ⟨h1, h2⟩ := mainRun_ok_get env fuel i hok hi
  refine ⟨h1, h2, rfl, ?_⟩
  rw [mainRun_ok env fuel hok]
  simp only [List.length_cons, loopRun_length]
  omega

/-- Witness for C7: in a 2-iteration observation of the successful run,
iteration 1 writes `"1\n"` at trace position 5 and sleeps at position 6. -/
theorem loop_iteration_shape_witness :
    nth (mainRun ⟨true, true, true, termios0⟩ 2).1 5 = some (Event.evWrite ['1', '\n']) ∧
    nth (mainRun ⟨true, true, true, termios0⟩ 2).1 6 = some (Event.evSleep 100) := by
  have h := loop_iteration_shape ⟨true, true, true, termios0⟩ 2 1 rfl (by omega)
  have e : msgChars (counterAt 1) = ['1', '\n'] := by decide
  exact ⟨e ▸ h.1, h.2.1⟩

/-- Claim C2: for every counter value `n ≥ 0`, the transmitted message is
the base-10 decimal digit string of `n` (digits only, decoding back to `n`,
no leading zero except the single digit of 0 itself) followed by exactly
one newline byte and nothing else. -/
theorem message_format (n : Int) (h : 0 ≤ n) :
    msgChars n = natDecChars n.toNat ++ ['\n'] ∧
    decodeDigits (natDecChars n.toNat) = n.toNat ∧
    (∀ c ∈ natDecChars n.toNat, c.isDigit = true) ∧
    '\n' ∉ natDecChars n.toNat ∧
    natDecChars n.toNat ≠ [] ∧
    (0 < n → (natDecChars n.toNat).head? ≠ some '0') ∧
    (n = 0 → natDecChars n.toNat = ['0']) := by
  refine ⟨msgChars_nonneg h, decodeDigits_natDecChars _, ?_, ?_,
    natDecChars_ne_nil _, ?_, ?_⟩
  · intro c hc
    obtain ⟨d, hd, rfl⟩ := natDecChars_mem hc
    exact digitChar_isDigit hd
  · intro hc
    obtain ⟨d, hd, he⟩ := natDecChars_mem hc
    exact digitChar_ne_newline hd he.symm
  · intro h0
    exact natDecChars_head?_ne_char0 (by omega)
  · intro h0
    rw [h0]
    rfl

/-- Witness for C2: the message for counter value 10 is the digit string
`"10"` plus one newline, and those digits decode back to 10. -/
theorem message_format_witness :
    msgChars 10 = natDecChars (10 : Int).toNat ++ ['\n'] ∧
    decodeDigits (natDecChars (10 : Int).toNat) = (10 : Int).toNat := by
  have h := message_format 10 (by omega)
  exact ⟨h.1, h.2.1⟩

/-- Claim C1 (amended): in a run whose configuration succeeded, the first
three transmitted messages are exactly `"0\n"`, `"1\n"`, `"2\n"`, and any
two consecutive transmitted messages decode to values `a` then `a + 1` as
long as the later message's iteration index is at most 2147483647 — i.e.
before the 32-bit counter wraps; at the wrap the next decoded value is
-2147483648 instead (see the counterexample for the unrestricted claim). -/
theorem transmission_monotone (env : Env) (fuel : Nat) (hok : configOk env = true) :
    (3 ≤ fuel →
      nth (mainRun env fuel).1 3 = some (Event.evWrite ['0', '\n']) ∧
      nth (mainRun env fuel).1 5 = some (Event.evWrite ['1', '\n']) ∧
      nth (mainRun env fuel).1 7 = some (Event.evWrite ['2', '\n'])) ∧
    (∀ i : Nat, i + 1 < fuel → i + 1 ≤ 2147483647 →
      nth (mainRun env fuel).1 (3 + 2 * i) = some (Event.evWrite (msgChars (counterAt i))) ∧
      nth (mainRun env fuel).1 (3 + 2 * (i + 1))
          = some (Event.evWrite (msgChars (counterAt (i + 1)))) ∧
      decodeMsg (msgChars (counterAt (i + 1))) = decodeMsg (msgChars (counterAt i)) + 1) := by
  constructor
  · intro h3
    have h0 := (mainRun_ok_get env fuel 0 hok (by omega)).1
    have h1 := (mainRun_ok_get env fuel 1 hok (by omega)).1
    have h2 := (mainRun_ok_get env fuel 2 hok (by omega)).1
    have e0 : msgChars (counterAt 0) = ['0', '\n'] := by decide
    have e1 : msgChars (counterAt 1) = ['1', '\n'] := by decide
    have e2 : msgChars (counterAt 2) = ['2', '\n'] := by decide
    rw [e0] at h0
    rw [e1] at h1
    rw [e2] at h2
    exact ⟨h0, h1, h2⟩
  · intro i hif hibound
    refine ⟨(mainRun_ok_get env fuel i hok (by omega)).1,
      (mainRun_ok_get env fuel (i + 1) hok (by omega)).1, ?_⟩
    rw [decodeMsg_msgChars, decodeMsg_msgChars, counterAt_small hibound,
      counterAt_small (show i ≤ 2147483647 by omega)]
    push_cast
    ring

/-- Witness for C1 (amended): in an 8-iteration observation of the
successful run, the first message is `"0\n"` and the second decoded value
is the first plus one. -/
theorem transmission_monotone_witness :
    nth (mainRun ⟨true, true, true, termios0⟩ 8).1 3 = some (Event.evWrite ['0', '\n']) ∧
    decodeMsg (msgChars (counterAt 1)) = decodeMsg (msgChars (counterAt 0)) + 1 := by
  have h := transmission_monotone ⟨true, true, true, termios0⟩ 8 rfl
  exact ⟨(h.1 (by omega)).1, (h.2 0 (by omega) (by omega)).2.2⟩

/-- Counterexample to C1 as stated: in the successful run observed for
2147483649 iterations, the consecutive transmitted messages at iterations
2147483647 and 2147483648 decode to 2147483647 and then -2147483648, and
-2147483648 ≠ 2147483647 + 1 — so the unrestricted monotonicity claim
fails at the 32-bit counter wrap. -/
theorem transmission_monotone_cex :
    nth (mainRun ⟨true, true, true, termios0⟩ 2147483649).1 (3 + 2 * 2147483647)
        = some (Event.evWrite (msgChars 2147483647)) ∧
    nth (mainRun ⟨true, true, true, termios0⟩ 2147483649).1 (3 + 2 * 2147483648)
        = some (Event.evWrite (msgChars (-2147483648))) ∧
    decodeMsg (msgChars 2147483647) = 2147483647 ∧
    decodeMsg (msgChars (-2147483648)) = -2147483648 ∧
    (-2147483648 : Int) ≠ 2147483647 + 1 := by
  have h1 := (mainRun_ok_get ⟨true, true, true, termios0⟩ 2147483649 2147483647
    rfl (by omega)).1
  have h2 := (mainRun_ok_get ⟨true, true, true, termios0⟩ 2147483649 2147483648
    rfl (by omega)).1
  rw [counterAt_small (by omega)] at h1
  rw [counterAt_wrap] at h2
  norm_num at h1
  exact ⟨h1, h2, decodeMsg_msgChars _, decodeMsg_msgChars _, by omega⟩

/-- Claim C10: the counter is a 32-bit two's-complement int: after the
iteration that transmits 2147483647 it wraps to -2147483648 (not 0),
messages for negative counter values begin with a '-' sign, the identity
`counterAt i = i` (hence the message-format and monotonicity properties)
holds exactly for iterations with counter value at most 2147483647, and
monotonic decoding fails at the wrap. -/
theorem counter_wraparound :
    counterAt 2147483647 = 2147483647 ∧
    int32succ 2147483647 = -2147483648 ∧
    counterAt 2147483648 = -2147483648 ∧
    counterAt 2147483648 ≠ 0 ∧
    (∀ i : Nat, i ≤ 2147483647 → counterAt i = (i : Int)) ∧
    (∀ n : Int, n < 0 → (msgChars n).head? = some '-') ∧
    decodeMsg (msgChars (counterAt 2147483648))
        ≠ decodeMsg (msgChars (counterAt 2147483647)) + 1 := by
  have hsmall : counterAt 2147483647 = ((2147483647 : Nat) : Int) :=
    counterAt_small (by omega)
  norm_num at hsmall
  refine ⟨hsmall, ?_, counterAt_wrap, ?_, fun i hi => counterAt_small hi, ?_, ?_⟩
  · rw [int32succ, wrap32]
    norm_num
  · rw [counterAt_wrap]
    omega
  · intro n hn
    rw [msgChars, intDecChars, if_pos hn]
    rfl
  · rw [counterAt_wrap, hsmall, decodeMsg_msgChars, decodeMsg_msgChars]
    omega

/-- Witness for C10: the counter identity at iteration 3, and the message
for the negative value -1 begins with a '-' sign. -/
theorem counter_wraparound_witness :
    counterAt 3 = ((3 : Nat) : Int) ∧ (msgChars (-1)).head? = some '-' :=
  ⟨counter_wraparound.2.2.2.2.1 3 (by omega),
    counter_wraparound.2.2.2.2.2.1 (-1) (by omega)⟩

end SerialDemo
